import Mathlib

/-!
Shallow embedding of the strava-web-app sources:
`src/services/stravaOAuth.ts`, `src/services/stravaApi.ts`,
`src/utils/dataProcessing.ts` and the shared interfaces of `src/types.ts`.

Conventions of the embedding:
* JavaScript numbers appearing as unix timestamps, distances and times are
  embedded as `Int`; page numbers, lengths and years as `Nat`.
* Browser and platform library calls are made explicit parameters or small
  modelled functions, each documented at its definition: `Date.now()` becomes
  a `now : Int` argument, `localStorage` access becomes an explicit
  `Option`-valued store threaded through, `fetch` responses become values of
  a response structure supplied by a `remote` function, and `JSON.parse`
  of the token blob becomes an explicit `parse` parameter returning `none`
  where the original throws.
* An `async` function performing network effects is embedded as a pure
  function from the (explicitly passed) outcomes of those effects to its
  result together with the effect trace the claims talk about (store state
  after the call, number of refresh requests, list of requested page numbers).
-/

/-! ### Data model (`src/types.ts`) -/

/-- Structure `StravaAthlete` of `src/types.ts`. -/
structure StravaAthlete where
  id : Int
  username : String
  firstname : String
  lastname : String
  deriving DecidableEq, Repr

/-- Structure `StravaActivity` of `src/types.ts`.  The `type` field (the sport)
is embedded as `Option String`: the TypeScript interface declares a `string`,
but the runtime value decoded from JSON may be absent, and the code guards
`activity.type || 'Unknown'` against exactly that; `none` models an absent
field and `some ""` an empty one, both falsy in JavaScript. -/
structure StravaActivity where
  id : Int
  name : String
  distance : Int
  moving_time : Int
  elapsed_time : Int
  total_elevation_gain : Int
  type : Option String
  start_date : String
  start_date_local : String
  timezone : String
  deriving DecidableEq, Repr

/-- Structure `YearlyStats` of `src/types.ts`. -/
structure YearlyStats where
  year : Nat
  distance : Int
  time : Int
  deriving DecidableEq, Repr

/-- Structure `SportYearlyStats` of `src/types.ts`. -/
structure SportYearlyStats where
  sport : String
  yearlyStats : List YearlyStats
  deriving DecidableEq, Repr

/-- Structure `StravaTokenResponse` of `src/types.ts`. -/
structure StravaTokenResponse where
  token_type : String
  expires_at : Int
  expires_in : Int
  refresh_token : String
  access_token : String
  athlete : StravaAthlete
  deriving DecidableEq, Repr

/-- Structure `StravaTokens` of `src/types.ts`. -/
structure StravaTokens where
  access_token : String
  refresh_token : String
  expires_at : Int
  deriving DecidableEq, Repr

/-! ### Token lifecycle (`src/services/stravaOAuth.ts`) -/

/-- Function `getStoredTokens` of `stravaOAuth.ts`.  The `localStorage`
slot under `STORAGE_KEY` is passed explicitly as `stored` (`none` when the
key is absent).  `parse` models `JSON.parse` on the blob, returning `none`
exactly where the original throws (the `try`/`catch` maps that throw to
`null`).  A present but empty blob is falsy in JavaScript, so the
`if (!stored) return null` guard also returns `null` for it. -/
def getStoredTokens (stored : Option String)
    (parse : String → Option StravaTokens) : Option StravaTokens :=
  match stored with
  | none => none
  | some s => if s = "" then none else parse s

/-- Function `isTokenExpired` of `stravaOAuth.ts`; `now` stands for
`Math.floor(Date.now() / 1000)`. -/
def isTokenExpired (tokens : StravaTokens) (now : Int) : Bool :=
  tokens.expires_at - now < 3600

/-- The two failure messages `getValidAccessToken` can throw:
`noStoredTokens` is `'No stored tokens. Please authenticate with Strava.'`
(the spec's `NotAuthenticated`) and `refreshFailed` is
`'Failed to refresh token. Please re-authenticate.'`. -/
inductive AuthError where
  | noStoredTokens
  | refreshFailed
  deriving DecidableEq, Repr

/-- The token pair built from a refresh response inside
`getValidAccessToken` (`tokens = { access_token: ..., refresh_token: ...,
expires_at: ... }`). -/
def tokensOfResponse (r : StravaTokenResponse) : StravaTokens :=
  { access_token := r.access_token
    refresh_token := r.refresh_token
    expires_at := r.expires_at }

deriving instance DecidableEq for Except

/-- Observable outcome of one `getValidAccessToken` call: the returned
access token or thrown error, the content of the token slot of the
credential store after the call, and how many refresh requests were sent. -/
structure AuthOutcome where
  result : Except AuthError String
  store : Option StravaTokens
  refreshCalls : Nat
  deriving DecidableEq, Repr

/-- Function `getValidAccessToken` of `stravaOAuth.ts`.  The credential
store is threaded at the decoded-token level: `store` is what
`getStoredTokens` yields, the returned `store` field is the slot content
after the call (`storeTokens` writes `some`, `clearTokens` writes `none`).
`refreshResult` is the outcome of the one possible `refreshAccessToken`
network call: `Except.ok` a token response, or `Except.error` for a failed
request (non-ok HTTP status or rejected fetch), which the original turns
into `clearTokens()` plus a thrown error. -/
def getValidAccessToken (store : Option StravaTokens) (now : Int)
    (refreshResult : Except Unit StravaTokenResponse) : AuthOutcome :=
  match store with
  | none => { result := .error .noStoredTokens, store := none, refreshCalls := 0 }
  | some tokens =>
    if isTokenExpired tokens now then
      match refreshResult with
      | .ok r =>
        let newTokens := tokensOfResponse r
        { result := .ok newTokens.access_token
          store := some newTokens
          refreshCalls := 1 }
      | .error _ =>
        { result := .error .refreshFailed, store := none, refreshCalls := 1 }
    else
      { result := .ok tokens.access_token, store := some tokens, refreshCalls := 0 }

/-! ### Paginated activity fetch (`src/services/stravaApi.ts`) -/

/-- The page size constant `perPage = 200` of `fetchActivities`. -/
def perPage : Nat := 200

/-- One `fetch` response for a page request, as `fetchActivities` observes
it: `ok` and `status`/`statusText` from the HTTP response; `body` the JSON
array of activities of a successful response; `errorMsg` the best-effort
message suffix the code extracts from the error body of a failed response
(the parsed JSON `message` field when the text parses and has one,
otherwise the non-empty raw text, otherwise empty — the string-assembly of
that suffix is platform `JSON.parse` work modelled as this one field). -/
structure PageResult where
  ok : Bool
  status : Nat
  statusText : String
  errorMsg : String
  body : List StravaActivity
  deriving DecidableEq, Repr

/-- The error classification performed in the `!response.ok` branch of
`fetchActivities`: HTTP 401 and 403 get the dedicated `Unauthorized` and
`Forbidden` messages, anything else the generic message carrying the
status, each followed by the best-effort message suffix. -/
inductive FetchError where
  | unauthorized (message : String)
  | forbidden (message : String)
  | remoteError (status : Nat) (statusText : String) (message : String)
  deriving DecidableEq, Repr

/-- Builds the thrown error of the `!response.ok` branch of
`fetchActivities` from the response fields. -/
def classifyFailure (status : Nat) (statusText errorMsg : String) : FetchError :=
  if status = 401 then .unauthorized errorMsg
  else if status = 403 then .forbidden errorMsg
  else .remoteError status statusText errorMsg

/-- Observable outcome of a `fetchActivities` call: the returned activity
list or thrown error, and the page numbers requested, in request order. -/
structure FetchOutcome where
  result : Except FetchError (List StravaActivity)
  requests : List Nat
  deriving DecidableEq, Repr

/-- The `while (true)` loop of `fetchActivities`, fuelled: `remote` gives
the response to each page request, `page` is the next page number, `acc`
the activities gathered so far and `reqs` the pages requested so far.
`none` means the fuel ran out before the loop exited; every claim supplies
enough fuel for its scenario.  Loop body order follows the source: a
non-ok response throws the classified error; an empty body breaks without
appending; the body is appended; a body shorter than `perPage` breaks;
otherwise the page number is incremented. -/
def fetchGo (remote : Nat → PageResult) :
    Nat → Nat → List StravaActivity → List Nat → Option FetchOutcome
  | 0, _, _, _ => none
  | fuel + 1, page, acc, reqs =>
    let resp := remote page
    if resp.ok = false then
      some { result := .error (classifyFailure resp.status resp.statusText resp.errorMsg)
             requests := reqs ++ [page] }
    else if resp.body.length = 0 then
      some { result := .ok acc, requests := reqs ++ [page] }
    else if resp.body.length < perPage then
      some { result := .ok (acc ++ resp.body), requests := reqs ++ [page] }
    else
      fetchGo remote fuel (page + 1) (acc ++ resp.body) (reqs ++ [page])

/-- Function `fetchActivities` of `stravaApi.ts`: the loop started at
`page = 1` with empty accumulator.  The surrounding `try`/`catch` only
logs and rethrows, so it does not change the outcome. -/
def fetchActivities (remote : Nat → PageResult) (fuel : Nat) : Option FetchOutcome :=
  fetchGo remote fuel 1 [] []

/-! ### Aggregation engine (`src/utils/dataProcessing.ts`) -/

/-- The sport key chosen by `groupActivitiesBySport`:
`activity.type || 'Unknown'`, that is `'Unknown'` exactly when the `type`
field is absent or the empty string (the falsy string). -/
def sportOf (a : StravaActivity) : String :=
  match a.type with
  | none => "Unknown"
  | some s => if s = "" then "Unknown" else s

/-- One step of the `reduce` in `groupActivitiesBySport` on the insertion-
ordered entry list of the accumulator object: a missing key is appended at
the end with a one-element list (`acc[sport] = []; acc[sport].push(...)`),
an existing key gets the activity pushed onto its list in place. -/
def addToGroup :
    List (String × List StravaActivity) → String → StravaActivity →
    List (String × List StravaActivity)
  | [], s, a => [(s, [a])]
  | (k, v) :: rest, s, a =>
    if k = s then (k, v ++ [a]) :: rest else (k, v) :: addToGroup rest s a

/-- The `reduce` body of `groupActivitiesBySport`. -/
def sportStep (acc : List (String × List StravaActivity)) (a : StravaActivity) :
    List (String × List StravaActivity) :=
  addToGroup acc (sportOf a) a

/-- Function `groupActivitiesBySport` of `dataProcessing.ts`.  The result
object `Record<string, StravaActivity[]>` is embedded as its entry list in
key-insertion order, which is the enumeration order of a string-keyed
JavaScript object for the non-integral sport-name keys. -/
def groupActivitiesBySport (activities : List StravaActivity) :
    List (String × List StravaActivity) :=
  activities.foldl sportStep []

/-- Numeric value of a decimal digit character, used by `yearOf`. -/
def digitVal (c : Char) : Nat := c.toNat - 48

/-- Models `new Date(s).getFullYear()` applied to the ISO-8601 date-time
strings of the Strava API (`start_date`, UTC, `YYYY-MM-DDTHH:MM:SSZ`): the
leading four-digit year. -/
def yearOf (s : String) : Nat :=
  match s.data with
  | c1 :: c2 :: c3 :: c4 :: _ =>
    digitVal c1 * 1000 + digitVal c2 * 100 + digitVal c3 * 10 + digitVal c4
  | _ => 0

/-- One `Map.set` update of the `forEach` body of `calculateYearlyStats`
on the insertion-ordered entry list of the `Map`: a missing year is
appended with the activity's distance and time added onto the
`{ distance: 0, time: 0 }` default, an existing year has them added onto
its entry in place. -/
def upsertYear :
    List (Nat × Int × Int) → Nat → Int → Int → List (Nat × Int × Int)
  | [], y, d, t => [(y, d, t)]
  | (k, v) :: rest, y, d, t =>
    if k = y then (k, v.1 + d, v.2 + t) :: rest
    else (k, v) :: upsertYear rest y d t

/-- The `forEach` body of `calculateYearlyStats`. -/
def yearStep (m : List (Nat × Int × Int)) (a : StravaActivity) :
    List (Nat × Int × Int) :=
  upsertYear m (yearOf a.start_date) a.distance a.moving_time

/-- Function `calculateYearlyStats` of `dataProcessing.ts`: fold the
activities into the year map, turn its entries into `YearlyStats` values,
and sort ascending by year (`.sort((a, b) => a.year - b.year)`, embedded
as the stable `mergeSort` with the corresponding `≤` comparison). -/
def calculateYearlyStats (activities : List StravaActivity) : List YearlyStats :=
  let yearMap := activities.foldl yearStep []
  (yearMap.map fun e => YearlyStats.mk e.1 e.2.1 e.2.2).mergeSort
    fun a b => a.year ≤ b.year

/-- Function `calculateSportYearlyStats` of `dataProcessing.ts`:
`Object.entries` of the sport groups, mapped to per-sport yearly stats. -/
def calculateSportYearlyStats (activities : List StravaActivity) :
    List SportYearlyStats :=
  (groupActivitiesBySport activities).map fun e =>
    SportYearlyStats.mk e.1 (calculateYearlyStats e.2)

/-- Sum of the `distance` fields of the activities of year `y`, the value
the claims compare aggregation results against. -/
def sumDistance (activities : List StravaActivity) (y : Nat) : Int :=
  ((activities.filter fun a => yearOf a.start_date = y).map
    fun a => a.distance).sum

/-- Sum of the `moving_time` fields of the activities of year `y`. -/
def sumTime (activities : List StravaActivity) (y : Nat) : Int :=
  ((activities.filter fun a => yearOf a.start_date = y).map
    fun a => a.moving_time).sum

/-- Looks up the aggregated totals of one sport-year pair in a
`calculateSportYearlyStats` result: the distance and time of the entry for
year `y` inside the entry for sport `s`, when both exist. -/
def statFor (out : List SportYearlyStats) (s : String) (y : Nat) :
    Option (Int × Int) :=
  match out.find? fun g => g.sport = s with
  | none => none
  | some g =>
    match g.yearlyStats.find? fun e => e.year = y with
    | none => none
    | some e => some (e.distance, e.time)

/-- A distinct concrete activity per index, for the concrete pagination
scenarios. -/
def mkAct (n : Nat) : StravaActivity :=
  { id := n
    name := "activity"
    distance := 1000
    moving_time := 60
    elapsed_time := 60
    total_elevation_gain := 0
    type := some "Run"
    start_date := "2023-01-01T00:00:00Z"
    start_date_local := "2023-01-01T00:00:00Z"
    timezone := "(GMT+00:00) UTC" }

/-- A successful page response with `n` distinct records starting at
record number `s`. -/
def okPage (s n : Nat) : PageResult :=
  { ok := true
    status := 200
    statusText := "OK"
    errorMsg := ""
    body := (List.range' s n).map mkAct }

/-- Remote source for the concrete three-page scenario of claim C4: 200
records, then 200 records, then 50 records. -/
def remote3 : Nat → PageResult
  | 1 => okPage 0 200
  | 2 => okPage 200 200
  | 3 => okPage 400 50
  | _ => okPage 450 0

/-- Remote source whose first page is already empty. -/
def remoteEmpty : Nat → PageResult :=
  fun _ => okPage 0 0

/-- A remote source that fails on page 2 with HTTP 429 after a full
page 1, for the concrete instance of the error claim. -/
def remoteFail : Nat → PageResult
  | 1 => okPage 0 200
  | _ => { ok := false
           status := 429
           statusText := "Too Many Requests"
           errorMsg := " - Rate Limit Exceeded"
           body := [] }

/-! ### Lookup helpers over the insertion-ordered entry lists -/

/-- First-match lookup in the year map entry list, the `Map.get` of
`calculateYearlyStats`. -/
def lookupYear : List (Nat × Int × Int) → Nat → Option (Int × Int)
  | [], _ => none
  | (k, v) :: rest, y => if k = y then some v else lookupYear rest y

/-- First-match lookup in the sport group entry list, the `acc[sport]`
access of `groupActivitiesBySport`. -/
def lookupGroup :
    List (String × List StravaActivity) → String → Option (List StravaActivity)
  | [], _ => none
  | (k, v) :: rest, s => if k = s then some v else lookupGroup rest s

/-- The activities of one sport, in input order. -/
def filterSport (activities : List StravaActivity) (s : String) :
    List StravaActivity :=
  activities.filter fun a => sportOf a = s

/-- Concrete activity: a 2023 run of 1000 m in 600 s. -/
def runA : StravaActivity :=
  { id := 1, name := "run a", distance := 1000, moving_time := 600
    elapsed_time := 700, total_elevation_gain := 10, type := some "Run"
    start_date := "2023-03-01T09:00:00Z"
    start_date_local := "2023-03-01T09:00:00Z", timezone := "UTC" }

/-- Concrete activity: a 2023 run of 2000 m in 1200 s. -/
def runB : StravaActivity :=
  { id := 2, name := "run b", distance := 2000, moving_time := 1200
    elapsed_time := 1300, total_elevation_gain := 20, type := some "Run"
    start_date := "2023-06-15T18:30:00Z"
    start_date_local := "2023-06-15T18:30:00Z", timezone := "UTC" }

/-- Concrete activity: a 2024 ride of 5000 m in 3000 s. -/
def rideC : StravaActivity :=
  { id := 3, name := "ride c", distance := 5000, moving_time := 3000
    elapsed_time := 3100, total_elevation_gain := 50, type := some "Ride"
    start_date := "2024-05-20T07:45:00Z"
    start_date_local := "2024-05-20T07:45:00Z", timezone := "UTC" }

/-- Concrete activity whose sport field is absent. -/
def unknownAct : StravaActivity :=
  { id := 4, name := "mystery", distance := 100, moving_time := 50
    elapsed_time := 60, total_elevation_gain := 0, type := none
    start_date := "2022-01-01T00:00:00Z"
    start_date_local := "2022-01-01T00:00:00Z", timezone := "UTC" }

/-! ### Claims about the token lifecycle -/

/-- Claim C1: for every stored token pair, `getValidAccessToken` issues no
refresh request when the stored token has more than the 3600-second margin
remaining and returns the stored access token unchanged; when the stored
token is within the margin it issues exactly one refresh request, persists
the refreshed pair to the store before returning, and returns the
refreshed access token; when no token pair is stored it fails with
`NotAuthenticated` (the no-stored-tokens error) without any network
call. -/
theorem getValidAccessToken_margin_spec (store : Option StravaTokens) (now : Int)
    (refreshResult : Except Unit StravaTokenResponse) :
    (∀ t, store = some t → 3600 < t.expires_at - now →
      getValidAccessToken store now refreshResult =
        { result := .ok t.access_token, store := some t, refreshCalls := 0 })
  ∧ (∀ t r, store = some t → t.expires_at - now < 3600 → refreshResult = .ok r →
      getValidAccessToken store now refreshResult =
        { result := .ok (tokensOfResponse r).access_token
          store := some (tokensOfResponse r)
          refreshCalls := 1 })
  ∧ (store = none →
      getValidAccessToken store now refreshResult =
        { result := .error .noStoredTokens, store := none, refreshCalls := 0 }) := by
  refine ⟨?_, ?_, ?_⟩
  · rintro t rfl h
    have hfresh : isTokenExpired t now = false := by
      simp only [isTokenExpired, decide_eq_false_iff_not]
      omega
    simp [getValidAccessToken, hfresh]
  · rintro t r rfl h rfl
    have hdue : isTokenExpired t now = true := by
      simp only [isTokenExpired, decide_eq_true_eq]
      omega
    simp [getValidAccessToken, hdue]
  · rintro rfl
    rfl

/-- Concrete instances of the three arms of
`getValidAccessToken_margin_spec`: a fresh token is returned unchanged
with no refresh, an expiring token is replaced by the refreshed pair with
one refresh, an empty store fails. -/
theorem getValidAccessToken_margin_spec_witness :
    (getValidAccessToken (some ⟨"fresh", "r", 10000⟩) 0 (.error ()) =
      { result := .ok "fresh", store := some ⟨"fresh", "r", 10000⟩, refreshCalls := 0 })
  ∧ (getValidAccessToken (some ⟨"stale", "r", 100⟩) 0
        (.ok ⟨"Bearer", 30000, 21600, "r2", "new", ⟨7, "u", "f", "l"⟩⟩) =
      { result := .ok (tokensOfResponse ⟨"Bearer", 30000, 21600, "r2", "new", ⟨7, "u", "f", "l"⟩⟩).access_token
        store := some (tokensOfResponse ⟨"Bearer", 30000, 21600, "r2", "new", ⟨7, "u", "f", "l"⟩⟩)
        refreshCalls := 1 })
  ∧ (getValidAccessToken none 0 (.error ()) =
      { result := .error .noStoredTokens, store := none, refreshCalls := 0 }) :=
  ⟨(getValidAccessToken_margin_spec (some ⟨"fresh", "r", 10000⟩) 0 (.error ())).1
      ⟨"fresh", "r", 10000⟩ rfl (by decide),
   (getValidAccessToken_margin_spec (some ⟨"stale", "r", 100⟩) 0
        (.ok ⟨"Bearer", 30000, 21600, "r2", "new", ⟨7, "u", "f", "l"⟩⟩)).2.1
      ⟨"stale", "r", 100⟩ ⟨"Bearer", 30000, 21600, "r2", "new", ⟨7, "u", "f", "l"⟩⟩
      rfl (by decide) rfl,
   (getValidAccessToken_margin_spec none 0 (.error ())).2.2 rfl⟩

/-- Claim C2: whenever the refresh request inside `getValidAccessToken`
fails, the persisted credential store is left empty, that call fails (with
the refresh-failed error), and the next call fails with
`NotAuthenticated` (the no-stored-tokens error). -/
theorem refresh_failure_clears_store (t : StravaTokens) (now now2 : Int)
    (rr2 : Except Unit StravaTokenResponse)
    (h : isTokenExpired t now = true) :
    (getValidAccessToken (some t) now (.error ())).store = none
  ∧ (getValidAccessToken (some t) now (.error ())).result = .error .refreshFailed
  ∧ getValidAccessToken (getValidAccessToken (some t) now (.error ())).store now2 rr2 =
      { result := .error .noStoredTokens, store := none, refreshCalls := 0 } := by
  simp [getValidAccessToken, h]

/-- Concrete instance of `refresh_failure_clears_store` for a token that
expired at time 0, checked at time 0. -/
theorem refresh_failure_clears_store_witness :
    (getValidAccessToken (some ⟨"a", "r", 0⟩) 0 (.error ())).store = none
  ∧ (getValidAccessToken (some ⟨"a", "r", 0⟩) 0 (.error ())).result = .error .refreshFailed
  ∧ getValidAccessToken (getValidAccessToken (some ⟨"a", "r", 0⟩) 0 (.error ())).store 0
      (.error ()) =
      { result := .error .noStoredTokens, store := none, refreshCalls := 0 } :=
  refresh_failure_clears_store ⟨"a", "r", 0⟩ 0 0 (.error ()) (by decide)

/-- Claim C3: for every token pair and every current time `now`,
`isTokenExpired` returns true iff `expires_at - now < 3600`; in particular
3599 seconds remaining gives true and 3600 seconds remaining gives
false. -/
theorem isTokenExpired_iff_margin (t : StravaTokens) (now : Int) :
    (isTokenExpired t now = true ↔ t.expires_at - now < 3600)
  ∧ (t.expires_at - now = 3599 → isTokenExpired t now = true)
  ∧ (t.expires_at - now = 3600 → isTokenExpired t now = false) := by
  refine ⟨by simp [isTokenExpired], ?_, ?_⟩ <;>
    intro h <;>
    simp only [isTokenExpired, decide_eq_true_eq, decide_eq_false_iff_not] <;>
    omega

/-- Concrete boundary instances of `isTokenExpired_iff_margin`: with
`now = 0`, a token expiring at 3599 is due for refresh and a token
expiring at 3600 is not. -/
theorem isTokenExpired_iff_margin_witness :
    isTokenExpired ⟨"a", "r", 3599⟩ 0 = true
  ∧ isTokenExpired ⟨"a", "r", 3600⟩ 0 = false :=
  ⟨(isTokenExpired_iff_margin ⟨"a", "r", 3599⟩ 0).2.1 rfl,
   (isTokenExpired_iff_margin ⟨"a", "r", 3600⟩ 0).2.2 rfl⟩

/-- Claim C10: retrieving stored tokens is total: when no token blob is
present `getStoredTokens` returns `none`, and when the stored blob cannot
be decoded (so `JSON.parse` throws, modelled by `parse` returning `none`)
it also returns `none` rather than propagating a decoding error — at this
interface a corrupted persisted blob is indistinguishable from the
not-authenticated state. -/
theorem getStoredTokens_total (parse : String → Option StravaTokens) (s : String) :
    getStoredTokens none parse = none
  ∧ (parse s = none → getStoredTokens (some s) parse = none) := by
  refine ⟨rfl, fun h => ?_⟩
  by_cases hs : s = "" <;> simp [getStoredTokens, hs, h]

/-- Concrete instance of `getStoredTokens_total`: a parse function that
rejects every blob (corrupted serialization) yields `none` on a present
blob, and an absent blob yields `none`. -/
theorem getStoredTokens_total_witness :
    getStoredTokens none (fun _ => none) = none
  ∧ getStoredTokens (some "corrupt blob") (fun _ => none) = none :=
  ⟨(getStoredTokens_total (fun _ => none) "corrupt blob").1,
   (getStoredTokens_total (fun _ => none) "corrupt blob").2 rfl⟩

/-! ### Claims about the paginated fetch -/

/-- Advancing the fetch loop over a run of full, successful pages: `n`
consecutive pages from `start` that are ok and exactly `perPage` long are
requested in order, their bodies appended in order, and the loop continues
at `start + n`. -/
theorem fetchGo_skip_full (remote : Nat → PageResult) (n : Nat) :
    ∀ (start fuel : Nat) (acc : List StravaActivity) (reqs : List Nat),
      n < fuel →
      (∀ i, start ≤ i → i < start + n →
        (remote i).ok = true ∧ (remote i).body.length = perPage) →
      fetchGo remote fuel start acc reqs =
        fetchGo remote (fuel - n) (start + n)
          (acc ++ (List.range' start n).flatMap fun i => (remote i).body)
          (reqs ++ List.range' start n) := by
  induction n with
  | zero => intro start fuel acc reqs _ _; simp
  | succ n ih =>
    intro start fuel acc reqs hlt hfull
    obtain ⟨f, rfl⟩ : ∃ f, fuel = f + 1 := ⟨fuel - 1, by omega⟩
    have h0 := hfull start le_rfl (by omega)
    have step : fetchGo remote (f + 1) start acc reqs =
        fetchGo remote f (start + 1) (acc ++ (remote start).body) (reqs ++ [start]) := by
      simp [fetchGo, h0.1, h0.2, perPage]
    rw [step, ih (start + 1) f _ _ (by omega)
      (fun i h1 h2 => hfull i (by omega) (by omega))]
    have e1 : f - n = f + 1 - (n + 1) := by omega
    have e2 : start + 1 + n = start + (n + 1) := by omega
    rw [e1, e2, List.range'_succ]
    simp [List.append_assoc]

/-- Claim C4: `fetchActivities` requests pages in strictly increasing
order starting at 1 (the request list is `range' 1 k`, that is
`[1, …, k]`); when the first non-full page `k` is empty it stops without
including it, returning the concatenation of pages `1 … k-1` in request
order, and when page `k` is shorter than `perPage` it stops after
including it, returning the concatenation of pages `1 … k` in request
order.  The concrete 200/200/50-record and empty-first-page scenarios are
instances, checked in the witness. -/
theorem fetchActivities_pagination (remote : Nat → PageResult) (k fuel : Nat)
    (hk : 1 ≤ k) (hfuel : k ≤ fuel)
    (hfull : ∀ i, 1 ≤ i → i < k →
      (remote i).ok = true ∧ (remote i).body.length = perPage)
    (hok : (remote k).ok = true) :
    ((remote k).body = [] →
      fetchActivities remote fuel =
        some { result := .ok ((List.range' 1 (k - 1)).flatMap fun i => (remote i).body)
               requests := List.range' 1 k })
  ∧ ((remote k).body.length < perPage →
      fetchActivities remote fuel =
        some { result := .ok ((List.range' 1 k).flatMap fun i => (remote i).body)
               requests := List.range' 1 k }) := by
  have hskip := fetchGo_skip_full remote (k - 1) 1 fuel [] [] (by omega)
    (fun i h1 h2 => hfull i h1 (by omega))
  obtain ⟨f, hf⟩ : ∃ f, fuel - (k - 1) = f + 1 := ⟨fuel - (k - 1) - 1, by omega⟩
  have hstart : 1 + (k - 1) = k := by omega
  have hsplit : List.range' 1 k = List.range' 1 (k - 1) ++ [k] := by
    have : k = k - 1 + 1 := by omega
    rw [this, List.range'_concat]
    simp [show 1 + (k - 1) = k - 1 + 1 by omega]
  rw [hstart, hf] at hskip
  constructor
  · intro hempty
    rw [fetchActivities, hskip, fetchGo]
    simp [hok, hempty, hsplit]
  · intro hshort
    by_cases hempty : (remote k).body = []
    · rw [fetchActivities, hskip, fetchGo]
      simp [hok, hempty, hsplit, List.flatMap_append]
    · rw [fetchActivities, hskip, fetchGo]
      have hlen : ¬ (remote k).body.length = 0 := by
        simpa [List.length_eq_zero] using hempty
      simp [hok, hlen, hshort, hsplit, List.flatMap_append]

set_option maxRecDepth 4096 in
/-- Concrete instances of `fetchActivities_pagination`: the 200/200/50
remote source yields exactly the 450 records `mkAct 0 … mkAct 449` in
request order using exactly the three page requests 1, 2, 3, and the
empty-first-page source yields no records using exactly one request. -/
theorem fetchActivities_pagination_witness :
    fetchActivities remote3 3 =
      some { result := .ok ((List.range 450).map mkAct), requests := [1, 2, 3] }
  ∧ fetchActivities remoteEmpty 1 =
      some { result := .ok [], requests := [1] } := by
  constructor
  · have h := (fetchActivities_pagination remote3 3 3 (by omega) le_rfl
      (by
        intro i h1 h2
        interval_cases i <;>
          simp [remote3, okPage, perPage])
      (by simp [remote3, okPage])).2
      (by simp [remote3, okPage, perPage])
    rw [h]
    rfl
  · have h := (fetchActivities_pagination remoteEmpty 1 1 le_rfl le_rfl
      (by intro i h1 h2; omega)
      (by simp [remoteEmpty, okPage])).1
      (by simp [remoteEmpty, okPage])
    rw [h]
    rfl

/-- Claim C5: when the pages before `k` are full and successful and page
`k`'s HTTP response is non-success, `fetchActivities` fails for the whole
operation — the outcome carries the classified error of page `k` and none
of the records gathered from earlier pages — and the classification is
`unauthorized` for HTTP 401, `forbidden` for HTTP 403, and `remoteError`
carrying the status and best-effort parsed message for any other
non-success status. -/
theorem fetchActivities_error_spec (remote : Nat → PageResult) (k fuel : Nat)
    (hk : 1 ≤ k) (hfuel : k ≤ fuel)
    (hfull : ∀ i, 1 ≤ i → i < k →
      (remote i).ok = true ∧ (remote i).body.length = perPage)
    (hbad : (remote k).ok = false) :
    fetchActivities remote fuel =
      some { result := .error
                (classifyFailure (remote k).status (remote k).statusText (remote k).errorMsg)
             requests := List.range' 1 k }
  ∧ ((remote k).status = 401 →
      classifyFailure (remote k).status (remote k).statusText (remote k).errorMsg =
        .unauthorized (remote k).errorMsg)
  ∧ ((remote k).status = 403 →
      classifyFailure (remote k).status (remote k).statusText (remote k).errorMsg =
        .forbidden (remote k).errorMsg)
  ∧ ((remote k).status ≠ 401 → (remote k).status ≠ 403 →
      classifyFailure (remote k).status (remote k).statusText (remote k).errorMsg =
        .remoteError (remote k).status (remote k).statusText (remote k).errorMsg) := by
  refine ⟨?_, ?_, ?_, ?_⟩
  · have hskip := fetchGo_skip_full remote (k - 1) 1 fuel [] [] (by omega)
      (fun i h1 h2 => hfull i h1 (by omega))
    obtain ⟨f, hf⟩ : ∃ f, fuel - (k - 1) = f + 1 := ⟨fuel - (k - 1) - 1, by omega⟩
    have hstart : 1 + (k - 1) = k := by omega
    have hsplit : List.range' 1 k = List.range' 1 (k - 1) ++ [k] := by
      have hx : k = k - 1 + 1 := by omega
      rw [hx, List.range'_concat]
      simp [show 1 + (k - 1) = k - 1 + 1 by omega]
    rw [hstart, hf] at hskip
    rw [fetchActivities, hskip, fetchGo]
    simp [hbad, hsplit]
  · intro h; simp [classifyFailure, h]
  · intro h
    have h1 : (remote k).status ≠ 401 := by omega
    simp [classifyFailure, h, h1]
  · intro h1 h3
    simp [classifyFailure, h1, h3]

set_option maxRecDepth 4096 in
/-- Concrete instance of `fetchActivities_error_spec`: a full page 1
followed by an HTTP 429 on page 2 makes the whole fetch fail with the
remote-error classification of page 2 and no records, after requesting
pages 1 and 2. -/
theorem fetchActivities_error_spec_witness :
    fetchActivities remoteFail 2 =
      some { result := .error (.remoteError 429 "Too Many Requests" " - Rate Limit Exceeded")
             requests := [1, 2] }
  ∧ classifyFailure (remoteFail 2).status (remoteFail 2).statusText (remoteFail 2).errorMsg =
      .remoteError 429 "Too Many Requests" " - Rate Limit Exceeded" := by
  have h := fetchActivities_error_spec remoteFail 2 2 (by omega) le_rfl
    (by
      intro i h1 h2
      interval_cases i
      simp [remoteFail, okPage, perPage])
    (by simp [remoteFail])
  refine ⟨?_, ?_⟩
  · rw [h.1]
    rfl
  · rw [h.2.2.2 (by simp [remoteFail]) (by simp [remoteFail])]
    rfl

/-! ### Structure of the year map built by `calculateYearlyStats` -/

/-- Unfolding `sumDistance` over a cons cell. -/
theorem sumDistance_cons (a : StravaActivity) (rest : List StravaActivity) (y : Nat) :
    sumDistance (a :: rest) y =
      (if yearOf a.start_date = y then a.distance else 0) + sumDistance rest y := by
  by_cases h : yearOf a.start_date = y <;> simp [sumDistance, List.filter_cons, h]

/-- Unfolding `sumTime` over a cons cell. -/
theorem sumTime_cons (a : StravaActivity) (rest : List StravaActivity) (y : Nat) :
    sumTime (a :: rest) y =
      (if yearOf a.start_date = y then a.moving_time else 0) + sumTime rest y := by
  by_cases h : yearOf a.start_date = y <;> simp [sumTime, List.filter_cons, h]

/-- Lookup after one `upsertYear` step: the updated year has the
activity's distance and time added onto its previous totals (zero when the
year was absent), every other year is untouched. -/
theorem lookupYear_upsertYear (m : List (Nat × Int × Int)) (y : Nat) (d t : Int)
    (q : Nat) :
    lookupYear (upsertYear m y d t) q =
      if q = y then
        some (((lookupYear m y).getD (0, 0)).1 + d, ((lookupYear m y).getD (0, 0)).2 + t)
      else lookupYear m q := by
  induction m with
  | nil =>
    by_cases h : q = y
    · subst h; simp [upsertYear, lookupYear]
    · simp [upsertYear, lookupYear, h, Ne.symm h]
  | cons p rest ih =>
    obtain ⟨k, v⟩ := p
    by_cases hky : k = y
    · subst hky
      by_cases hq : q = k
      · subst hq; simp [upsertYear, lookupYear]
      · simp [upsertYear, lookupYear, hq, Ne.symm hq]
    · by_cases hqk : q = k
      · subst hqk
        simp [upsertYear, lookupYear, hky, Ne.symm hky]
      · by_cases hq : q = y
        · subst hq
          simp [upsertYear, lookupYear, hky, Ne.symm hky, Ne.symm hqk, ih]
        · simp [upsertYear, lookupYear, hky, Ne.symm hky, hqk, Ne.symm hqk, hq, ih]

/-- Keys after one `upsertYear` step: an existing year leaves the key list
unchanged, a new year is appended at the end. -/
theorem keys_upsertYear (m : List (Nat × Int × Int)) (y : Nat) (d t : Int) :
    (upsertYear m y d t).map Prod.fst =
      if y ∈ m.map Prod.fst then m.map Prod.fst else m.map Prod.fst ++ [y] := by
  induction m with
  | nil => simp [upsertYear]
  | cons p rest ih =>
    obtain ⟨k, v⟩ := p
    by_cases hky : k = y
    · subst hky
      simp [upsertYear, List.mem_cons]
    · by_cases hmem : y ∈ rest.map Prod.fst <;>
        simp [upsertYear, List.mem_cons, hky, Ne.symm hky, hmem, ih]

/-- The `upsertYear` step keeps the year keys duplicate-free. -/
theorem nodup_keys_upsertYear (m : List (Nat × Int × Int)) (y : Nat) (d t : Int)
    (h : (m.map Prod.fst).Nodup) : ((upsertYear m y d t).map Prod.fst).Nodup := by
  rw [keys_upsertYear]
  by_cases hmem : y ∈ m.map Prod.fst <;> simp [hmem, h, List.Nodup.append]

/-- Lookup in the year map after folding a whole activity list: an
existing year accumulates the activities' sums onto its previous totals; a
new year appears with exactly the sums of its activities, and only if some
activity has that year. -/
theorem lookupYear_foldl (acts : List StravaActivity) :
    ∀ (m : List (Nat × Int × Int)) (y : Nat),
      lookupYear (acts.foldl yearStep m) y =
        match lookupYear m y with
        | some v => some (v.1 + sumDistance acts y, v.2 + sumTime acts y)
        | none =>
          if ∃ a ∈ acts, yearOf a.start_date = y
          then some (sumDistance acts y, sumTime acts y)
          else none := by
  induction acts with
  | nil =>
    intro m y
    cases h : lookupYear m y <;> simp [sumDistance, sumTime, h]
  | cons a rest ih =>
    intro m y
    rw [List.foldl_cons, ih (yearStep m a) y]
    simp only [yearStep]
    have hup := lookupYear_upsertYear m (yearOf a.start_date) a.distance
      a.moving_time y
    by_cases hy : y = yearOf a.start_date
    · subst hy
      rw [if_pos rfl] at hup
      cases hm : lookupYear m (yearOf a.start_date) with
      | none =>
        rw [hm] at hup
        simp only [Option.getD_none] at hup
        rw [hup]
        simp [sumDistance_cons, sumTime_cons]
      | some v =>
        rw [hm] at hup
        simp only [Option.getD_some] at hup
        rw [hup]
        simp [sumDistance_cons, sumTime_cons, add_assoc]
    · rw [if_neg hy] at hup
      rw [hup]
      have hne : ¬ yearOf a.start_date = y := fun h => hy h.symm
      have hsd : sumDistance (a :: rest) y = sumDistance rest y := by
        simp [sumDistance_cons, hne]
      have hst : sumTime (a :: rest) y = sumTime rest y := by
        simp [sumTime_cons, hne]
      rw [hsd, hst]
      cases lookupYear m y <;> simp [hne]

/-- Folding activities into the year map keeps the year keys
duplicate-free. -/
theorem nodup_keys_foldl_yearStep (acts : List StravaActivity) :
    ∀ m : List (Nat × Int × Int), (m.map Prod.fst).Nodup →
      ((acts.foldl yearStep m).map Prod.fst).Nodup := by
  induction acts with
  | nil => intro m h; simpa using h
  | cons a rest ih =>
    intro m h
    rw [List.foldl_cons]
    exact ih _ (nodup_keys_upsertYear _ _ _ _ h)

/-- A lookup yielding `none` means the year is not a key. -/
theorem lookupYear_eq_none (m : List (Nat × Int × Int)) (y : Nat) :
    lookupYear m y = none ↔ y ∉ m.map Prod.fst := by
  induction m with
  | nil => simp [lookupYear]
  | cons p rest ih =>
    obtain ⟨k, v⟩ := p
    by_cases h : k = y
    · subst h; simp [lookupYear]
    · simp [lookupYear, h, Ne.symm h, ih]

/-- A successful lookup is a membership. -/
theorem lookupYear_mem (m : List (Nat × Int × Int)) (y : Nat) (v : Int × Int)
    (h : lookupYear m y = some v) : (y, v) ∈ m := by
  induction m with
  | nil => simp [lookupYear] at h
  | cons p rest ih =>
    obtain ⟨k, w⟩ := p
    by_cases hk : k = y
    · subst hk
      simp only [lookupYear, if_pos rfl] at h
      obtain rfl : w = v := by simpa using h
      exact List.mem_cons_self _ _
    · simp only [lookupYear, if_neg hk] at h
      exact List.mem_cons_of_mem _ (ih h)

/-- With duplicate-free keys a membership determines the lookup. -/
theorem mem_lookupYear (m : List (Nat × Int × Int)) (y : Nat) (v : Int × Int)
    (hnd : (m.map Prod.fst).Nodup) (h : (y, v) ∈ m) :
    lookupYear m y = some v := by
  induction m with
  | nil => simp at h
  | cons p rest ih =>
    obtain ⟨k, w⟩ := p
    rw [List.map_cons, List.nodup_cons] at hnd
    rcases List.mem_cons.mp h with h1 | h1
    · cases h1
      simp [lookupYear]
    · have hk : ¬ k = y := by
        intro he
        have hy2 : y ∈ rest.map Prod.fst := List.mem_map.mpr ⟨(y, v), h1, rfl⟩
        rw [← he] at hy2
        exact hnd.1 hy2
      simp only [lookupYear, if_neg hk]
      exact ih hnd.2 h1

/-- Membership characterization of `calculateYearlyStats`: the entries are
exactly one per year having at least one contributing activity, carrying
the distance and moving-time sums of that year. -/
theorem mem_calculateYearlyStats (acts : List StravaActivity) (e : YearlyStats) :
    e ∈ calculateYearlyStats acts ↔
      (∃ a ∈ acts, yearOf a.start_date = e.year)
    ∧ e.distance = sumDistance acts e.year
    ∧ e.time = sumTime acts e.year := by
  obtain ⟨y0, d0, t0⟩ := e
  unfold calculateYearlyStats
  rw [List.mem_mergeSort, List.mem_map]
  constructor
  · rintro ⟨x, hx, hmk⟩
    obtain ⟨yx, dx, tx⟩ := x
    obtain ⟨h1, h2, h3⟩ : yx = y0 ∧ dx = d0 ∧ tx = t0 := by
      simpa [YearlyStats.mk.injEq] using hmk
    rw [h1, h2, h3] at hx
    have hnd := nodup_keys_foldl_yearStep acts [] (by simp)
    have hlk := mem_lookupYear _ _ _ hnd hx
    rw [lookupYear_foldl acts [] y0] at hlk
    simp only [lookupYear] at hlk
    by_cases hex : ∃ a ∈ acts, yearOf a.start_date = y0
    · rw [if_pos hex] at hlk
      obtain ⟨hd, ht⟩ : sumDistance acts y0 = d0 ∧ sumTime acts y0 = t0 := by
        simpa [Prod.ext_iff] using hlk
      exact ⟨hex, hd.symm, ht.symm⟩
    · rw [if_neg hex] at hlk
      exact absurd hlk (by simp)
  · rintro ⟨hex, hd, ht⟩
    refine ⟨(y0, d0, t0), ?_, rfl⟩
    apply lookupYear_mem
    rw [lookupYear_foldl acts [] y0]
    simp only [lookupYear]
    rw [if_pos hex]
    rw [show d0 = sumDistance acts y0 from hd, show t0 = sumTime acts y0 from ht]

/-- The output of `calculateYearlyStats` is strictly ascending by year. -/
theorem pairwise_calculateYearlyStats (acts : List StravaActivity) :
    (calculateYearlyStats acts).Pairwise (fun x y => x.year < y.year) := by
  unfold calculateYearlyStats
  have hsorted := @List.sorted_mergeSort YearlyStats
    (fun a b => decide (a.year ≤ b.year))
    (fun a b c hab hbc => by
      simp only [decide_eq_true_eq] at *
      omega)
    (fun a b => by simp [Nat.le_total])
    ((acts.foldl yearStep []).map fun e => YearlyStats.mk e.1 e.2.1 e.2.2)
  have hperm := List.mergeSort_perm
    ((acts.foldl yearStep []).map fun e => YearlyStats.mk e.1 e.2.1 e.2.2)
    (fun a b => decide (a.year ≤ b.year))
  have hkeys :
      (((acts.foldl yearStep []).map fun e => YearlyStats.mk e.1 e.2.1 e.2.2).map
        fun x => x.year) = (acts.foldl yearStep []).map Prod.fst := by
    rw [List.map_map]
    rfl
  have hnodup :
      ((List.mergeSort
        ((acts.foldl yearStep []).map fun e => YearlyStats.mk e.1 e.2.1 e.2.2)
        (fun a b => decide (a.year ≤ b.year))).map fun x => x.year).Nodup := by
    rw [(hperm.map fun x => x.year).nodup_iff, hkeys]
    exact nodup_keys_foldl_yearStep acts [] (by simp)
  have hpair_ne := List.pairwise_map.mp hnodup
  exact (hsorted.and hpair_ne).imp fun h =>
    lt_of_le_of_ne (by simpa using h.1) h.2

/-! ### Structure of the sport groups built by `groupActivitiesBySport` -/

/-- Unfolding `filterSport` over a cons cell. -/
theorem filterSport_cons (a : StravaActivity) (rest : List StravaActivity)
    (s : String) :
    filterSport (a :: rest) s =
      if sportOf a = s then a :: filterSport rest s else filterSport rest s := by
  by_cases h : sportOf a = s <;> simp [filterSport, List.filter_cons, h]

/-- Lookup after one `addToGroup` step: the touched sport gets the
activity appended onto its previous list (empty when the sport was
absent), every other sport is untouched. -/
theorem lookupGroup_addToGroup (m : List (String × List StravaActivity))
    (s : String) (a : StravaActivity) (q : String) :
    lookupGroup (addToGroup m s a) q =
      if q = s then some ((lookupGroup m s).getD [] ++ [a])
      else lookupGroup m q := by
  induction m with
  | nil =>
    by_cases h : q = s
    · subst h; simp [addToGroup, lookupGroup]
    · simp [addToGroup, lookupGroup, h, Ne.symm h]
  | cons p rest ih =>
    obtain ⟨k, v⟩ := p
    by_cases hks : k = s
    · subst hks
      by_cases hq : q = k
      · subst hq; simp [addToGroup, lookupGroup]
      · simp [addToGroup, lookupGroup, hq, Ne.symm hq]
    · by_cases hqk : q = k
      · subst hqk
        simp [addToGroup, lookupGroup, hks, Ne.symm hks]
      · by_cases hq : q = s
        · subst hq
          simp [addToGroup, lookupGroup, hks, Ne.symm hks, Ne.symm hqk, ih]
        · simp [addToGroup, lookupGroup, hks, Ne.symm hks, hqk, Ne.symm hqk, hq, ih]

/-- Keys after one `addToGroup` step: an existing sport leaves the key
list unchanged, a new sport is appended at the end. -/
theorem keys_addToGroup (m : List (String × List StravaActivity)) (s : String)
    (a : StravaActivity) :
    (addToGroup m s a).map Prod.fst =
      if s ∈ m.map Prod.fst then m.map Prod.fst else m.map Prod.fst ++ [s] := by
  induction m with
  | nil => simp [addToGroup]
  | cons p rest ih =>
    obtain ⟨k, v⟩ := p
    by_cases hks : k = s
    · subst hks
      simp [addToGroup, List.mem_cons]
    · by_cases hmem : s ∈ rest.map Prod.fst <;>
        simp [addToGroup, List.mem_cons, hks, Ne.symm hks, hmem, ih]

/-- The `addToGroup` step keeps the sport keys duplicate-free. -/
theorem nodup_keys_addToGroup (m : List (String × List StravaActivity))
    (s : String) (a : StravaActivity) (h : (m.map Prod.fst).Nodup) :
    ((addToGroup m s a).map Prod.fst).Nodup := by
  rw [keys_addToGroup]
  by_cases hmem : s ∈ m.map Prod.fst <;> simp [hmem, h, List.Nodup.append]

/-- One `addToGroup` step grows the total size of the groups by one. -/
theorem sizes_addToGroup (m : List (String × List StravaActivity)) (s : String)
    (a : StravaActivity) :
    ((addToGroup m s a).map fun e => e.2.length).sum =
      ((m.map fun e => e.2.length).sum) + 1 := by
  induction m with
  | nil => simp [addToGroup]
  | cons p rest ih =>
    obtain ⟨k, v⟩ := p
    by_cases hks : k = s
    · subst hks
      simp [addToGroup]
      omega
    · simp [addToGroup, hks, ih]
      omega

/-- Lookup in the sport groups after folding a whole activity list: an
existing sport accumulates its activities in input order, a new sport
appears with exactly its activities, and only if some activity has that
sport. -/
theorem lookupGroup_foldl (acts : List StravaActivity) :
    ∀ (m : List (String × List StravaActivity)) (s : String),
      lookupGroup (acts.foldl sportStep m) s =
        match lookupGroup m s with
        | some g => some (g ++ filterSport acts s)
        | none =>
          if ∃ a ∈ acts, sportOf a = s then some (filterSport acts s) else none := by
  induction acts with
  | nil =>
    intro m s
    cases h : lookupGroup m s <;> simp [filterSport, h]
  | cons a rest ih =>
    intro m s
    rw [List.foldl_cons, ih (sportStep m a) s]
    simp only [sportStep]
    have hup := lookupGroup_addToGroup m (sportOf a) a s
    by_cases hy : s = sportOf a
    · subst hy
      rw [if_pos rfl] at hup
      cases hm : lookupGroup m (sportOf a) with
      | none =>
        rw [hm] at hup
        simp only [Option.getD_none] at hup
        rw [hup]
        simp [filterSport_cons]
      | some g =>
        rw [hm] at hup
        simp only [Option.getD_some] at hup
        rw [hup]
        simp [filterSport_cons]
    · rw [if_neg hy] at hup
      rw [hup]
      have hne : ¬ sportOf a = s := fun h => hy h.symm
      rw [filterSport_cons, if_neg hne]
      cases lookupGroup m s <;> simp [hne]

/-- Folding activities into the sport groups keeps the sport keys
duplicate-free. -/
theorem nodup_keys_foldl_sportStep (acts : List StravaActivity) :
    ∀ m : List (String × List StravaActivity), (m.map Prod.fst).Nodup →
      ((acts.foldl sportStep m).map Prod.fst).Nodup := by
  induction acts with
  | nil => intro m h; simpa using h
  | cons a rest ih =>
    intro m h
    rw [List.foldl_cons]
    exact ih _ (nodup_keys_addToGroup _ _ _ h)

/-- Folding activities into the sport groups grows the total size of the
groups by the number of activities. -/
theorem sizes_foldl_sportStep (acts : List StravaActivity) :
    ∀ m : List (String × List StravaActivity),
      ((acts.foldl sportStep m).map fun e => e.2.length).sum =
        ((m.map fun e => e.2.length).sum) + acts.length := by
  induction acts with
  | nil => intro m; simp
  | cons a rest ih =>
    intro m
    rw [List.foldl_cons, ih (sportStep m a)]
    simp only [sportStep, sizes_addToGroup]
    simp
    omega

/-- A successful sport lookup is a membership. -/
theorem lookupGroup_mem (m : List (String × List StravaActivity)) (s : String)
    (g : List StravaActivity) (h : lookupGroup m s = some g) : (s, g) ∈ m := by
  induction m with
  | nil => simp [lookupGroup] at h
  | cons p rest ih =>
    obtain ⟨k, w⟩ := p
    by_cases hk : k = s
    · subst hk
      simp only [lookupGroup, if_pos rfl] at h
      obtain rfl : w = g := by simpa using h
      exact List.mem_cons_self _ _
    · simp only [lookupGroup, if_neg hk] at h
      exact List.mem_cons_of_mem _ (ih h)

/-- With duplicate-free keys a sport membership determines the lookup. -/
theorem mem_lookupGroup (m : List (String × List StravaActivity)) (s : String)
    (g : List StravaActivity) (hnd : (m.map Prod.fst).Nodup) (h : (s, g) ∈ m) :
    lookupGroup m s = some g := by
  induction m with
  | nil => simp at h
  | cons p rest ih =>
    obtain ⟨k, w⟩ := p
    rw [List.map_cons, List.nodup_cons] at hnd
    rcases List.mem_cons.mp h with h1 | h1
    · cases h1
      simp [lookupGroup]
    · have hk : ¬ k = s := by
        intro he
        have hs2 : s ∈ rest.map Prod.fst := List.mem_map.mpr ⟨(s, g), h1, rfl⟩
        rw [← he] at hs2
        exact hnd.1 hs2
      simp only [lookupGroup, if_neg hk]
      exact ih hnd.2 h1

/-- Membership characterization of `groupActivitiesBySport`: the entries
are exactly one per sport having at least one activity, carrying that
sport's activities in input order. -/
theorem mem_groupActivitiesBySport (acts : List StravaActivity)
    (e : String × List StravaActivity) :
    e ∈ groupActivitiesBySport acts ↔
      (∃ a ∈ acts, sportOf a = e.1) ∧ e.2 = filterSport acts e.1 := by
  obtain ⟨s0, g0⟩ := e
  unfold groupActivitiesBySport
  dsimp only
  constructor
  · intro hx
    have hnd := nodup_keys_foldl_sportStep acts [] (by simp)
    have hlk := mem_lookupGroup _ _ _ hnd hx
    rw [lookupGroup_foldl acts [] s0] at hlk
    simp only [lookupGroup] at hlk
    by_cases hex : ∃ a ∈ acts, sportOf a = s0
    · rw [if_pos hex] at hlk
      obtain rfl : filterSport acts s0 = g0 := by simpa using hlk
      exact ⟨hex, rfl⟩
    · rw [if_neg hex] at hlk
      exact absurd hlk (by simp)
  · rintro ⟨hex, rfl⟩
    apply lookupGroup_mem
    rw [lookupGroup_foldl acts [] s0]
    simp only [lookupGroup]
    rw [if_pos hex]

/-! ### Claims about the aggregation engine -/

unseal List.merge List.mergeSort in
/-- Claim C6: `calculateSportYearlyStats` applied to the three records
run 2023 distance 1000, run 2023 distance 2000, ride 2024 distance 5000
returns exactly one `Run` entry with the 2023 sums followed by one `Ride`
entry with the 2024 sums, sports in first-occurrence order. -/
theorem calculateSportYearlyStats_example :
    calculateSportYearlyStats [runA, runB, rideC] =
      [{ sport := "Run", yearlyStats := [{ year := 2023, distance := 3000, time := 1800 }] },
       { sport := "Ride", yearlyStats := [{ year := 2024, distance := 5000, time := 3000 }] }] := by
  decide

/-- Claim C7: for every input record collection, the yearly sequence of
`calculateYearlyStats` and every per-sport yearly sequence inside
`calculateSportYearlyStats` contain no duplicate years, are ordered
strictly ascending by year, sum distance and moving time over all
contributing records of that year, and contain no entry for a year with
zero contributing records. -/
theorem aggregation_yearly_invariants (acts : List StravaActivity) :
    (((calculateYearlyStats acts).map fun e => e.year).Nodup
    ∧ (calculateYearlyStats acts).Pairwise (fun x y => x.year < y.year)
    ∧ ∀ e ∈ calculateYearlyStats acts,
        e.distance = sumDistance acts e.year
      ∧ e.time = sumTime acts e.year
      ∧ ∃ a ∈ acts, yearOf a.start_date = e.year)
  ∧ ∀ g ∈ calculateSportYearlyStats acts,
      ((g.yearlyStats.map fun e => e.year).Nodup
      ∧ g.yearlyStats.Pairwise (fun x y => x.year < y.year)
      ∧ ∀ e ∈ g.yearlyStats,
          e.distance = sumDistance (filterSport acts g.sport) e.year
        ∧ e.time = sumTime (filterSport acts g.sport) e.year
        ∧ ∃ a ∈ filterSport acts g.sport, yearOf a.start_date = e.year) := by
  have core : ∀ l : List StravaActivity,
      ((calculateYearlyStats l).map fun e => e.year).Nodup
    ∧ (calculateYearlyStats l).Pairwise (fun x y => x.year < y.year)
    ∧ ∀ e ∈ calculateYearlyStats l,
        e.distance = sumDistance l e.year
      ∧ e.time = sumTime l e.year
      ∧ ∃ a ∈ l, yearOf a.start_date = e.year := by
    intro l
    have hp := pairwise_calculateYearlyStats l
    refine ⟨?_, hp, ?_⟩
    · exact List.pairwise_map.mpr (hp.imp fun h => Nat.ne_of_lt h)
    · intro e he
      obtain ⟨hex, hd, ht⟩ := (mem_calculateYearlyStats l e).mp he
      exact ⟨hd, ht, hex⟩
  refine ⟨core acts, ?_⟩
  intro g hg
  unfold calculateSportYearlyStats at hg
  obtain ⟨p, hp, rfl⟩ := List.mem_map.mp hg
  obtain ⟨hex, hfil⟩ := (mem_groupActivitiesBySport acts p).mp hp
  have hpg : calculateYearlyStats p.2 =
      calculateYearlyStats (filterSport acts p.1) := by rw [hfil]
  simpa [hpg] using core (filterSport acts p.1)

unseal List.merge List.mergeSort in
/-- Concrete instances of `aggregation_yearly_invariants` on the
three-activity collection: the 2023 entry of the overall yearly sequence
carries the 2023 sums and a contributing activity, and inside the sport
sequence the `Run` entry's 2023 stats carry the sums over the runs. -/
theorem aggregation_yearly_invariants_witness :
    ((YearlyStats.mk 2023 3000 1800).distance =
        sumDistance [runA, runB, rideC] (YearlyStats.mk 2023 3000 1800).year
    ∧ (YearlyStats.mk 2023 3000 1800).time =
        sumTime [runA, runB, rideC] (YearlyStats.mk 2023 3000 1800).year
    ∧ ∃ a ∈ [runA, runB, rideC],
        yearOf a.start_date = (YearlyStats.mk 2023 3000 1800).year)
  ∧ ((YearlyStats.mk 2023 3000 1800).distance =
        sumDistance
          (filterSport [runA, runB, rideC]
            (SportYearlyStats.mk "Run" [YearlyStats.mk 2023 3000 1800]).sport)
          (YearlyStats.mk 2023 3000 1800).year
    ∧ (YearlyStats.mk 2023 3000 1800).time =
        sumTime
          (filterSport [runA, runB, rideC]
            (SportYearlyStats.mk "Run" [YearlyStats.mk 2023 3000 1800]).sport)
          (YearlyStats.mk 2023 3000 1800).year
    ∧ ∃ a ∈ filterSport [runA, runB, rideC]
          (SportYearlyStats.mk "Run" [YearlyStats.mk 2023 3000 1800]).sport,
        yearOf a.start_date = (YearlyStats.mk 2023 3000 1800).year) :=
  ⟨(aggregation_yearly_invariants [runA, runB, rideC]).1.2.2
      (YearlyStats.mk 2023 3000 1800) (by decide),
   ((aggregation_yearly_invariants [runA, runB, rideC]).2
      (SportYearlyStats.mk "Run" [YearlyStats.mk 2023 3000 1800]) (by decide)).2.2
      (YearlyStats.mk 2023 3000 1800) (by decide)⟩

/-- Claim C8: `groupActivitiesBySport` assigns every record to exactly one
group — the sport keys are duplicate-free, each group holds exactly its
sport's records (in input order), the group sizes sum to the input length,
and every record appears in the group of its own sport key — and every
record whose sport field is absent or empty lands in the single sentinel
group keyed `"Unknown"`. -/
theorem groupActivitiesBySport_spec (acts : List StravaActivity) :
    ((groupActivitiesBySport acts).map Prod.fst).Nodup
  ∧ (∀ e ∈ groupActivitiesBySport acts, e.2 = filterSport acts e.1)
  ∧ ((groupActivitiesBySport acts).map fun e => e.2.length).sum = acts.length
  ∧ (∀ a ∈ acts, ∃ e ∈ groupActivitiesBySport acts, e.1 = sportOf a ∧ a ∈ e.2)
  ∧ (∀ a ∈ acts, (a.type = none ∨ a.type = some "") →
      ∃ e ∈ groupActivitiesBySport acts, e.1 = "Unknown" ∧ a ∈ e.2) := by
  have hassign : ∀ a ∈ acts,
      ∃ e ∈ groupActivitiesBySport acts, e.1 = sportOf a ∧ a ∈ e.2 := by
    intro a ha
    refine ⟨(sportOf a, filterSport acts (sportOf a)), ?_, rfl, ?_⟩
    · exact (mem_groupActivitiesBySport acts _).mpr ⟨⟨a, ha, rfl⟩, rfl⟩
    · simp [filterSport, List.mem_filter, ha]
  refine ⟨?_, ?_, ?_, hassign, ?_⟩
  · exact nodup_keys_foldl_sportStep acts [] (by simp)
  · intro e he
    exact ((mem_groupActivitiesBySport acts e).mp he).2
  · have := sizes_foldl_sportStep acts []
    simpa [groupActivitiesBySport] using this
  · intro a ha hun
    have hs : sportOf a = "Unknown" := by
      rcases hun with h | h <;> simp [sportOf, h]
    obtain ⟨e, he, h1, h2⟩ := hassign a ha
    exact ⟨e, he, h1.trans hs, h2⟩

/-- Concrete instances of `groupActivitiesBySport_spec`: on a collection
containing a record with an absent sport field, that record lands in the
`"Unknown"` group, and the `Run` group of the three-activity collection
holds exactly the runs. -/
theorem groupActivitiesBySport_spec_witness :
    (∃ e ∈ groupActivitiesBySport [runA, unknownAct],
        e.1 = "Unknown" ∧ unknownAct ∈ e.2)
  ∧ ("Run", [runA, runB]).2 = filterSport [runA, runB, rideC] ("Run", [runA, runB]).1 :=
  ⟨(groupActivitiesBySport_spec [runA, unknownAct]).2.2.2.2 unknownAct
      (by decide) (Or.inl rfl),
   (groupActivitiesBySport_spec [runA, runB, rideC]).2.1 ("Run", [runA, runB])
      (by decide)⟩

/-- Characterization of one sport-year cell of the aggregated output: it
is present exactly when some activity has that sport and year, and then
carries the distance and time sums over that sport's activities of that
year. -/
theorem statFor_calculateSportYearlyStats (acts : List StravaActivity)
    (s : String) (y : Nat) :
    statFor (calculateSportYearlyStats acts) s y =
      if ∃ a ∈ acts, sportOf a = s ∧ yearOf a.start_date = y
      then some (sumDistance (filterSport acts s) y, sumTime (filterSport acts s) y)
      else none := by
  unfold statFor
  cases hfind : (calculateSportYearlyStats acts).find? (fun g => g.sport = s) with
  | none =>
    rw [if_neg]
    rintro ⟨a, ha, hs, hy⟩
    have hg : SportYearlyStats.mk s (calculateYearlyStats (filterSport acts s)) ∈
        calculateSportYearlyStats acts := by
      unfold calculateSportYearlyStats
      exact List.mem_map.mpr
        ⟨(s, filterSport acts s),
         (mem_groupActivitiesBySport acts _).mpr ⟨⟨a, ha, hs⟩, rfl⟩, rfl⟩
    have hc := List.find?_eq_none.mp hfind _ hg
    simp at hc
  | some g =>
    have hpred : g.sport = s := by simpa using List.find?_some hfind
    have hmem := List.mem_of_find?_eq_some hfind
    unfold calculateSportYearlyStats at hmem
    obtain ⟨p, hp, hgdef⟩ := List.mem_map.mp hmem
    obtain ⟨ps, pg⟩ := p
    obtain ⟨hex0, hfil⟩ := (mem_groupActivitiesBySport acts _).mp hp
    dsimp only at hex0 hfil
    have hsport : ps = s := by
      rw [← hgdef] at hpred
      simpa using hpred
    subst hsport
    subst hfil
    rw [← hgdef]
    dsimp only
    cases hfind2 :
        (calculateYearlyStats (filterSport acts ps)).find? (fun e => e.year = y) with
    | none =>
      rw [if_neg]
      rintro ⟨a, ha, hs2, hy2⟩
      have hafil : a ∈ filterSport acts ps := by
        simp [filterSport, List.mem_filter, ha, hs2]
      have hentry : YearlyStats.mk y (sumDistance (filterSport acts ps) y)
          (sumTime (filterSport acts ps) y) ∈
          calculateYearlyStats (filterSport acts ps) :=
        (mem_calculateYearlyStats _ _).mpr ⟨⟨a, hafil, hy2⟩, rfl, rfl⟩
      have hc := List.find?_eq_none.mp hfind2 _ hentry
      simp at hc
    | some e =>
      have hyear : e.year = y := by simpa using List.find?_some hfind2
      have hemem := List.mem_of_find?_eq_some hfind2
      obtain ⟨hex2, hd, ht⟩ := (mem_calculateYearlyStats _ _).mp hemem
      have hcond : ∃ a ∈ acts, sportOf a = ps ∧ yearOf a.start_date = y := by
        obtain ⟨a, ha, hy2⟩ := hex2
        obtain ⟨ha1, ha2⟩ : a ∈ acts ∧ sportOf a = ps := by
          simpa [filterSport] using ha
        exact ⟨a, ha1, ha2, hyear ▸ hy2⟩
      rw [if_pos hcond]
      dsimp only
      rw [hd, ht, hyear]

/-- Claim C9: aggregation is order-independent with respect to input
record order — for every input collection and every permutation of it,
`calculateSportYearlyStats` yields identical grouped sums, that is the
same distance and time totals for every sport-year pair. -/
theorem aggregation_perm_invariant (l1 l2 : List StravaActivity)
    (h : l1.Perm l2) (s : String) (y : Nat) :
    statFor (calculateSportYearlyStats l1) s y =
      statFor (calculateSportYearlyStats l2) s y := by
  rw [statFor_calculateSportYearlyStats, statFor_calculateSportYearlyStats]
  have hexiff : (∃ a ∈ l1, sportOf a = s ∧ yearOf a.start_date = y) ↔
      (∃ a ∈ l2, sportOf a = s ∧ yearOf a.start_date = y) := by
    constructor <;> rintro ⟨a, ha, hp⟩
    · exact ⟨a, h.mem_iff.mp ha, hp⟩
    · exact ⟨a, h.mem_iff.mpr ha, hp⟩
  have hpermfil : (filterSport l1 s).Perm (filterSport l2 s) := h.filter _
  have hD : sumDistance (filterSport l1 s) y = sumDistance (filterSport l2 s) y := by
    unfold sumDistance
    exact ((hpermfil.filter _).map _).sum_eq
  have hT : sumTime (filterSport l1 s) y = sumTime (filterSport l2 s) y := by
    unfold sumTime
    exact ((hpermfil.filter _).map _).sum_eq
  by_cases hc : ∃ a ∈ l1, sportOf a = s ∧ yearOf a.start_date = y
  · rw [if_pos hc, if_pos (hexiff.mp hc), hD, hT]
  · rw [if_neg hc, if_neg fun hx => hc (hexiff.mpr hx)]

/-- Concrete instance of `aggregation_perm_invariant`: reversing the
three-activity collection leaves the `Run`/2023 cell of the aggregation
unchanged. -/
theorem aggregation_perm_invariant_witness :
    statFor (calculateSportYearlyStats [runA, runB, rideC]) "Run" 2023 =
      statFor (calculateSportYearlyStats [rideC, runB, runA]) "Run" 2023 :=
  aggregation_perm_invariant [runA, runB, rideC] [rideC, runB, runA]
    (by decide) "Run" 2023
